import Mathlib

/-!
Shallow embedding of `src/backends/FileBackend.impl.ts` from the
neko-memory-system repository: a file-backed document store with an
in-memory metadata index persisted as a JSON dotfile at the store root.

Modelling conventions:
* The filesystem under the store root is a finite association list from
  relative path (`path.join(category, filename)`) to file content.  Names
  and categories are assumed to be plain, filesystem-safe path segments,
  as the specification requires; in particular they do not alias the
  metadata index dotfile at the root.
* `new Date()` reads a natural-number clock stored in the state;
  operations read it and never advance it (the environment advances it
  between calls).
* `crypto.createHash('sha256').update(content).digest('hex')` is modelled
  by the computable digest `sha256Model`; no claim depends on the digest
  value, only on its functional dependence on the content.
* A JS `Map` is an association list with insertion-order semantics:
  `set` on an existing key updates in place, otherwise appends.
* A thrown JS exception is either a plain `Error` with a message or a
  Node errno exception with a `code`; operations return
  `Except (JsErr × Backend) (α × Backend)`, the error carrying the state
  at the throw point (in this backend every throw happens before any
  mutation of the state).
-/

namespace NekoMemory

/-- One thrown JS value: `new Error(msg)` or a Node errno exception. -/
inductive JsErr where
  | error (msg : String)
  | errno (code : String) (msg : String)
deriving DecidableEq, Repr

/-- Test of `(error as NodeJS.ErrnoException).code === 'ENOENT'`. -/
def JsErr.isEnoent : JsErr → Bool
  | .errno c _ => c = "ENOENT"
  | _ => false

/-- Message text of a thrown value. -/
def JsErr.message : JsErr → String
  | .error m => m
  | .errno _ m => m

/-- Errno exception thrown by `fs` when a path does not exist. -/
def enoent (p : String) : JsErr :=
  .errno "ENOENT" ("ENOENT: no such file or directory, " ++ p)

/-- `FileMetadata` record from `FileBackend.impl.ts`. -/
structure FileMetadata where
  filePath : String
  contentHash : Nat
  lastUpdated : Nat
  accessCount : Nat
  size : Nat
deriving DecidableEq, Repr

/-- Computable stand-in for the sha256 hex digest; only its functional
dependence on the content is relied upon by any theorem below. -/
def sha256Model (s : String) : Nat :=
  s.data.foldl (fun h c => (h * 131 + c.toNat) % 18446744073709551616) 5381

/-- Byte length of the utf-8 encoding, as reported by `fs.stat().size`
after `fs.writeFile(..., content, 'utf-8')`. -/
def utf8Size (s : String) : Nat := s.utf8ByteSize

/-- JS `String.prototype.length`: number of utf-16 code units. -/
def jsLength (s : String) : Nat :=
  s.data.foldl (fun n c => n + (if c.toNat ≥ 65536 then 2 else 1)) 0

/-- JS `Map.get` (also used for reading a file from the filesystem map). -/
def jsMapGet {β : Type} (m : List (String × β)) (k : String) : Option β :=
  match m with
  | [] => none
  | (k', v) :: rest => if k' = k then some v else jsMapGet rest k

/-- JS `Map.set`: update in place when the key is present (keeping the
insertion order), otherwise append at the end. -/
def jsMapSet {β : Type} (m : List (String × β)) (k : String) (v : β) :
    List (String × β) :=
  match m with
  | [] => [(k, v)]
  | (k', v') :: rest =>
    if k' = k then (k, v) :: rest else (k', v') :: jsMapSet rest k v

/-- JS `Map.delete` (also used for `fs.unlink`). -/
def jsMapDelete {β : Type} (m : List (String × β)) (k : String) :
    List (String × β) :=
  match m with
  | [] => []
  | (k', v') :: rest => if k' = k then rest else (k', v') :: jsMapDelete rest k

/-- Relative path of a stored file: `path.join(category, filename)` for
plain segments (`path.join` drops an empty category segment). -/
def joinRel (category filename : String) : String :=
  if category = "" then filename else category ++ "/" ++ filename

/-- State of one `FileBackendImpl` instance together with the filesystem
under its root. -/
structure Backend where
  /-- the in-memory `Map<string, FileMetadata>`, keyed by filename -/
  metadata : List (String × FileMetadata)
  /-- files on disk under the root, keyed by relative path -/
  fsFiles : List (String × String)
  /-- category directories that exist under the root -/
  dirs : List String
  /-- whether the `.metadata.json` index dotfile exists on disk -/
  metaSaved : Bool
  /-- parsed contents of the persisted `.metadata.json` index -/
  savedIndex : List (String × FileMetadata)
  /-- model clock read by `new Date()` -/
  now : Nat
deriving DecidableEq, Repr

/-- Fresh backend after `new FileBackendImpl(root)` and `initialize()` on
an empty root: category directories created, empty index loaded. -/
def Backend.initialized (now : Nat) : Backend :=
  { metadata := []
    fsFiles := []
    dirs := ["system", "personalities", "projects"]
    metaSaved := false
    savedIndex := []
    now := now }

/-- Result of an operation: on success the value and the post state, on a
throw the exception and the state at the throw point. -/
abbrev OpResult (α : Type) := Except (JsErr × Backend) (α × Backend)

/-- `FileBackendImpl.store`: write the file, build fresh metadata with
`accessCount = 0`, put it in the index keyed by filename only, persist
the index.  In the ENOENT-only fault model `store` cannot throw (its
catch block rethrows unchanged). -/
def Backend.store (b : Backend) (filename content category : String) :
    FileMetadata × Backend :=
  let fp := joinRel category filename
  let md : FileMetadata :=
    { filePath := fp
      contentHash := sha256Model content
      lastUpdated := b.now
      accessCount := 0
      size := utf8Size content }
  let meta' := jsMapSet b.metadata filename md
  (md,
    { b with
      fsFiles := jsMapSet b.fsFiles fp content
      dirs := if category = "" ∨ category ∈ b.dirs then b.dirs
              else b.dirs ++ [category]
      metadata := meta'
      savedIndex := meta'
      metaSaved := true })

/-- Catch block of `retrieve`: an ENOENT from `readFile` becomes
`Error('Memory file not found: ' + filename)`, anything else rethrown. -/
def retrieveCatch (filename : String) (e : JsErr) : JsErr :=
  if e.isEnoent then .error ("Memory file not found: " ++ filename) else e

/-- Catch block of `update`: an ENOENT from the existence probe becomes
`Error('Cannot update non-existent file: ' + filename)`. -/
def updateCatch (filename : String) (e : JsErr) : JsErr :=
  if e.isEnoent then .error ("Cannot update non-existent file: " ++ filename)
  else e

/-- Catch block of `remove`: an ENOENT from `unlink` becomes
`Error('Cannot delete non-existent file: ' + filename)`. -/
def removeCatch (filename : String) (e : JsErr) : JsErr :=
  if e.isEnoent then .error ("Cannot delete non-existent file: " ++ filename)
  else e

/-- `FileBackendImpl.retrieve`: read the file; when a metadata record for
the filename exists, bump `accessCount`, refresh `lastUpdated` and
persist the index; otherwise return synthesized metadata without
touching any state.  A missing file throws the mapped not-found error. -/
def Backend.retrieve (b : Backend) (filename category : String) :
    OpResult (String × FileMetadata) :=
  let fp := joinRel category filename
  match jsMapGet b.fsFiles fp with
  | none => .error (retrieveCatch filename (enoent fp), b)
  | some content =>
    match jsMapGet b.metadata filename with
    | some md =>
      let md' := { md with accessCount := md.accessCount + 1, lastUpdated := b.now }
      let meta' := jsMapSet b.metadata filename md'
      .ok ((content, md'),
        { b with metadata := meta', savedIndex := meta', metaSaved := true })
    | none =>
      .ok ((content,
        { filePath := fp
          contentHash := sha256Model content
          lastUpdated := b.now
          accessCount := 1
          size := jsLength content }), b)

/-- `FileBackendImpl.update`: probe for existence with `fs.access`, then
delegate to `store`; a missing file throws the mapped error with no
state change. -/
def Backend.update (b : Backend) (filename content category : String) :
    OpResult FileMetadata :=
  let fp := joinRel category filename
  if (jsMapGet b.fsFiles fp).isSome then .ok (b.store filename content category)
  else .error (updateCatch filename (enoent fp), b)

/-- `FileBackendImpl.append`: retrieve, concatenate with a newline, then
update. -/
def Backend.append (b : Backend) (filename additionalContent category : String) :
    OpResult FileMetadata :=
  match b.retrieve filename category with
  | .error e => .error e
  | .ok ((content, _), b1) =>
    b1.update filename (content ++ "\n" ++ additionalContent) category

/-- `FileBackendImpl.remove`: unlink the file, drop the metadata record,
persist the index; a missing file throws the mapped error. -/
def Backend.remove (b : Backend) (filename category : String) : OpResult Unit :=
  let fp := joinRel category filename
  if (jsMapGet b.fsFiles fp).isSome then
    let meta' := jsMapDelete b.metadata filename
    .ok ((),
      { b with
        fsFiles := jsMapDelete b.fsFiles fp
        metadata := meta'
        savedIndex := meta'
        metaSaved := true })
  else .error (removeCatch filename (enoent fp), b)

/-- Stable insert for a descending sort on `key`; building block of the
model of JS `Array.prototype.sort` with comparator `(a, b) ↦ key b - key a`
(JS sort is stable). -/
def insertDesc {α : Type} (key : α → Nat) (x : α) : List α → List α
  | [] => [x]
  | y :: ys => if key y < key x then x :: y :: ys else y :: insertDesc key x ys

/-- Stable descending sort on `key`. -/
def sortByDesc {α : Type} (key : α → Nat) : List α → List α
  | [] => []
  | x :: xs => insertDesc key x (sortByDesc key xs)

/-- One entry returned by `fs.readdir(..., { withFileTypes: true })`. -/
structure DirEntry where
  name : String
  isFile : Bool
deriving DecidableEq, Repr

/-- Characters of the first path segment of a relative path. -/
def firstSegL : List Char → List Char
  | [] => []
  | c :: cs => if c = '/' then [] else c :: firstSegL cs

/-- First path segment of a relative path. -/
def firstSeg (s : String) : String := String.mk (firstSegL s.data)

/-- Whether a relative path has exactly one segment (an immediate child). -/
def isPlain (s : String) : Bool := !(s.data.contains '/')

/-- Test whether `pre` is a leading piece of the characters and, when it
is, return the remainder (models `startsWith pre` plus `drop pre.length`). -/
def stripPre : List Char → List Char → Option (List Char)
  | [], xs => some xs
  | _ :: _, [] => none
  | p :: ps, x :: xs => if p = x then stripPre ps xs else none

/-- Whether `s` starts with `pre`. -/
def strStarts (s pre : String) : Bool := (stripPre pre.data s.data).isSome

/-- Immediate children of the store root: the category directories, the
top-level files, and the persisted index dotfile when present. -/
def rootEntries (b : Backend) : List DirEntry :=
  ((b.dirs.map firstSeg
      ++ (b.fsFiles.filter (fun p => !(isPlain p.1))).map
          (fun p => firstSeg p.1)).eraseDups).map
    (fun n => { name := n, isFile := false })
  ++ (b.fsFiles.filter (fun p => isPlain p.1)).map
      (fun p => { name := p.1, isFile := true })
  ++ (if b.metaSaved then [{ name := ".metadata.json", isFile := true }] else [])

/-- Immediate children of `root/category`. -/
def dirEntriesOf (b : Backend) (c : String) : List DirEntry :=
  let pre := c ++ "/"
  let under := b.fsFiles.filterMap
    (fun p => (stripPre pre.data p.1.data).map String.mk)
  let subdirs := b.dirs.filterMap
    (fun d => (stripPre pre.data d.data).map (fun r => String.mk (firstSegL r)))
  ((subdirs ++ (under.filter (fun r => !(isPlain r))).map firstSeg).eraseDups).map
    (fun n => { name := n, isFile := false })
  ++ (under.filter isPlain).map (fun n => { name := n, isFile := true })

/-- Whether `root/category` exists as a directory. -/
def dirExists (b : Backend) (c : String) : Bool :=
  b.dirs.contains c
    || b.dirs.any (fun d => strStarts d (c ++ "/"))
    || b.fsFiles.any (fun p => strStarts p.1 (c ++ "/"))

/-- Body of `list` after `readdir`: keep the non-hidden plain files that
have a metadata record under their bare name, then sort by `lastUpdated`
descending. -/
def processList (b : Backend) (entries : List DirEntry) : List FileMetadata :=
  sortByDesc (fun m => m.lastUpdated)
    (entries.filterMap (fun e =>
      if e.isFile && !(strStarts e.name ".") then jsMapGet b.metadata e.name
      else none))

/-- `FileBackendImpl.list` given the outcome of its `readdir` call: any
failure is caught (`console.error`) and an empty array is returned. -/
def Backend.listWithReaddir (b : Backend) (rd : Except JsErr (List DirEntry)) :
    Except JsErr (List FileMetadata) :=
  match rd with
  | .error _ => .ok []
  | .ok entries => .ok (processList b entries)

/-- Outcome of `fs.readdir` on the search path chosen by `list`. -/
def readdirModel (b : Backend) (category : Option String) :
    Except JsErr (List DirEntry) :=
  match category with
  | none => .ok (rootEntries b)
  | some c => if dirExists b c then .ok (dirEntriesOf b c) else .error (enoent c)

/-- `FileBackendImpl.list`. -/
def Backend.list (b : Backend) (category : Option String) : List FileMetadata :=
  match b.listWithReaddir (readdirModel b category) with
  | .ok l => l
  | .error _ => []

/-- Return type of `FileBackendImpl.getStats`. -/
structure Stats where
  totalFiles : Nat
  totalSize : Nat
  categories : List String
  mostAccessed : List FileMetadata
deriving DecidableEq, Repr

/-- `FileBackendImpl.getStats`. -/
def Backend.getStats (b : Backend) : Stats :=
  let allMetadata := b.metadata.map (fun p => p.2)
  { totalFiles := allMetadata.length
    totalSize := allMetadata.foldl (fun sum m => sum + m.size) 0
    categories := ["system", "personalities", "projects"]
    mostAccessed := (sortByDesc (fun m => m.accessCount) allMetadata).take 10 }

/-- Perform `n` consecutive `retrieve` calls, collecting the
`accessCount` of each returned metadata snapshot. -/
def iterRetrieve (filename category : String) : Nat → Backend → List Nat × Backend
  | 0, b => ([], b)
  | n + 1, b =>
    match b.retrieve filename category with
    | .ok ((_, md), b1) =>
      let r := iterRetrieve filename category n b1
      (md.accessCount :: r.1, r.2)
    | .error _ => ([], b)

/-- Substring relation on strings, as used by callers that branch on an
error message by substring match. -/
def containsSub (needle hay : String) : Prop := needle.data <:+: hay.data

instance (needle hay : String) : Decidable (containsSub needle hay) :=
  inferInstanceAs (Decidable (needle.data <:+: hay.data))

/-! ## Helper lemmas -/

theorem containsSub_append_left {n s : String} (t : String)
    (h : containsSub n s) : containsSub n (s ++ t) := by
  obtain ⟨u, v, huv⟩ := h
  refine ⟨u, v ++ t.data, ?_⟩
  rw [String.data_append, ← huv]
  simp [List.append_assoc]

theorem jsMapGet_set_self {β : Type} (m : List (String × β)) (k : String)
    (v : β) : jsMapGet (jsMapSet m k v) k = some v := by
  induction m with
  | nil => simp [jsMapSet, jsMapGet]
  | cons p rest ih =>
    obtain ⟨k', v'⟩ := p
    by_cases h : k' = k
    · simp [jsMapSet, jsMapGet, h]
    · simp [jsMapSet, jsMapGet, h, ih]

/-- After `store`, the stored file holds `content` and the index holds the
returned metadata. -/
theorem store_state (b : Backend) (name content category : String) :
    jsMapGet (b.store name content category).2.fsFiles (joinRel category name)
        = some content
    ∧ jsMapGet (b.store name content category).2.metadata name
        = some (b.store name content category).1 := by
  constructor
  · exact jsMapGet_set_self b.fsFiles (joinRel category name) content
  · exact jsMapGet_set_self b.metadata name (b.store name content category).1

/-- `retrieve` right after a `store` of the same name and category returns
exactly the stored content. -/
theorem retrieve_after_store_content (b : Backend) (name content category : String) :
    (((b.store name content category).2.retrieve name category).map
        (fun r => r.1.1)) = .ok content := by
  obtain ⟨hf, hm⟩ := store_state b name content category
  simp [Backend.retrieve, hf, hm, Except.map]

/-- `retrieve` when the file exists and a metadata record is present:
bump the record and persist. -/
theorem retrieve_found (b : Backend) (name category content : String)
    (md : FileMetadata)
    (hf : jsMapGet b.fsFiles (joinRel category name) = some content)
    (hm : jsMapGet b.metadata name = some md) :
    b.retrieve name category =
      .ok ((content, { md with accessCount := md.accessCount + 1, lastUpdated := b.now }),
        { b with
          metadata := jsMapSet b.metadata name
            { md with accessCount := md.accessCount + 1, lastUpdated := b.now }
          savedIndex := jsMapSet b.metadata name
            { md with accessCount := md.accessCount + 1, lastUpdated := b.now }
          metaSaved := true }) := by
  simp [Backend.retrieve, hf, hm]

/-- `retrieve` succeeds on an existing file and does not touch the
filesystem or the clock; the returned content is the file's content. -/
theorem retrieve_content_ok (b : Backend) (name category old : String)
    (h : jsMapGet b.fsFiles (joinRel category name) = some old) :
    ∃ mdR b1, b.retrieve name category = .ok ((old, mdR), b1)
      ∧ b1.fsFiles = b.fsFiles ∧ b1.now = b.now := by
  cases hm : jsMapGet b.metadata name with
  | some md0 => exact ⟨_, _, retrieve_found b name category old md0 h hm, rfl, rfl⟩
  | none =>
    exact ⟨{ filePath := joinRel category name, contentHash := sha256Model old,
             lastUpdated := b.now, accessCount := 1, size := jsLength old }, b,
           by simp [Backend.retrieve, h, hm], rfl, rfl⟩

/-- Invariant of repeated `retrieve` with no intervening writes: the
returned counters go up by one from the stored record's counter, the
final record's counter has increased by the number of calls, and the
filesystem is untouched. -/
theorem iterRetrieve_spec (name category content : String) :
    ∀ (N : Nat) (b : Backend) (md : FileMetadata),
      jsMapGet b.fsFiles (joinRel category name) = some content →
      jsMapGet b.metadata name = some md →
      (iterRetrieve name category N b).1
          = (List.range N).map (fun i => md.accessCount + i + 1)
        ∧ ((jsMapGet (iterRetrieve name category N b).2.metadata name).map
            (fun m => m.accessCount)) = some (md.accessCount + N)
        ∧ (iterRetrieve name category N b).2.fsFiles = b.fsFiles := by
  intro N
  induction N with
  | zero => intro b md hf hm; simp [iterRetrieve, hm]
  | succ n ih =>
    intro b md hf hm
    have hr := retrieve_found b name category content md hf hm
    have hstep : iterRetrieve name category (n + 1) b
        = ((md.accessCount + 1) ::
            (iterRetrieve name category n
              { b with
                metadata := jsMapSet b.metadata name
                  { md with accessCount := md.accessCount + 1, lastUpdated := b.now }
                savedIndex := jsMapSet b.metadata name
                  { md with accessCount := md.accessCount + 1, lastUpdated := b.now }
                metaSaved := true }).1,
          (iterRetrieve name category n
              { b with
                metadata := jsMapSet b.metadata name
                  { md with accessCount := md.accessCount + 1, lastUpdated := b.now }
                savedIndex := jsMapSet b.metadata name
                  { md with accessCount := md.accessCount + 1, lastUpdated := b.now }
                metaSaved := true }).2) := by
      simp [iterRetrieve, hr]
    obtain ⟨h1, h2, h3⟩ := ih
      { b with
        metadata := jsMapSet b.metadata name
          { md with accessCount := md.accessCount + 1, lastUpdated := b.now }
        savedIndex := jsMapSet b.metadata name
          { md with accessCount := md.accessCount + 1, lastUpdated := b.now }
        metaSaved := true }
      { md with accessCount := md.accessCount + 1, lastUpdated := b.now }
      hf (jsMapGet_set_self b.metadata name _)
    refine ⟨?_, ?_, ?_⟩
    · rw [hstep]
      simp only [h1, List.range_succ_eq_map, List.map_cons, List.map_map]
      refine List.cons_eq_cons.mpr ⟨by omega, ?_⟩
      exact (List.map_congr_left (fun a _ => by simp [Function.comp]; omega)).symm
    · rw [hstep]
      simp only [h2]
      congr 1
      omega
    · rw [hstep]
      exact h3

theorem insertDesc_perm {α : Type} (key : α → Nat) (x : α) (l : List α) :
    List.Perm (insertDesc key x l) (x :: l) := by
  induction l with
  | nil => exact List.Perm.refl _
  | cons y ys ih =>
    by_cases h : key y < key x
    · simp [insertDesc, h]
    · simp only [insertDesc, if_neg h]
      exact (ih.cons y).trans (List.Perm.swap x y ys)

theorem sortByDesc_perm {α : Type} (key : α → Nat) (l : List α) :
    List.Perm (sortByDesc key l) l := by
  induction l with
  | nil => exact List.Perm.refl _
  | cons x xs ih =>
    exact (insertDesc_perm key x (sortByDesc key xs)).trans (ih.cons x)

theorem insertDesc_sorted {α : Type} (key : α → Nat) (x : α) (l : List α)
    (h : l.Sorted (fun a b => key b ≤ key a)) :
    (insertDesc key x l).Sorted (fun a b => key b ≤ key a) := by
  induction l with
  | nil => simp [insertDesc]
  | cons y ys ih =>
    rw [List.sorted_cons] at h
    obtain ⟨hy, hys⟩ := h
    by_cases hxy : key y < key x
    · simp only [insertDesc, if_pos hxy]
      refine List.sorted_cons.mpr ⟨?_, List.sorted_cons.mpr ⟨hy, hys⟩⟩
      intro b hb
      rcases List.mem_cons.mp hb with hb | hb
      · subst hb; omega
      · exact le_trans (hy b hb) (le_of_lt hxy)
    · simp only [insertDesc, if_neg hxy]
      refine List.sorted_cons.mpr ⟨?_, ih hys⟩
      intro b hb
      rcases List.mem_cons.mp ((insertDesc_perm key x ys).mem_iff.mp hb) with hb' | hb'
      · subst hb'; omega
      · exact hy b hb'

theorem sortByDesc_sorted {α : Type} (key : α → Nat) (l : List α) :
    (sortByDesc key l).Sorted (fun a b => key b ≤ key a) := by
  induction l with
  | nil => simp [sortByDesc]
  | cons x xs ih => exact insertDesc_sorted key x _ ih

theorem foldl_add_size (l : List FileMetadata) :
    ∀ n : Nat, l.foldl (fun sum m => sum + m.size) n
      = n + (l.map (fun m => m.size)).sum := by
  induction l with
  | nil => intro n; simp
  | cons x xs ih => intro n; simp [List.foldl_cons, ih]; omega

/-! ## Claims -/

/-- C1 counterexample: with no file stored, `update` raises
`Cannot update non-existent file: a.md`, whose text does not contain the
substring `not found`; so not every not-found failure of retrieve,
update and remove carries a `not found` marker callers can branch on. -/
theorem update_missing_message_lacks_marker :
    (Backend.initialized 0).update "a.md" "c" "system"
      = .error (.error "Cannot update non-existent file: a.md", Backend.initialized 0)
    ∧ ¬ containsSub "not found" "Cannot update non-existent file: a.md" := by
  exact ⟨rfl, by decide⟩

/-- C1 (amended): when no file exists at `root/category/name`, `retrieve`
raises an error whose message contains the marker `not found`, while
`update` and `remove` raise errors whose messages instead contain the
marker `non-existent`; each is a fixed identifiable message and no state
is changed. -/
theorem missing_file_error_markers (b : Backend) (name category content : String)
    (h : jsMapGet b.fsFiles (joinRel category name) = none) :
    b.retrieve name category
        = .error (.error ("Memory file not found: " ++ name), b)
    ∧ containsSub "not found" ("Memory file not found: " ++ name)
    ∧ b.update name content category
        = .error (.error ("Cannot update non-existent file: " ++ name), b)
    ∧ containsSub "non-existent" ("Cannot update non-existent file: " ++ name)
    ∧ b.remove name category
        = .error (.error ("Cannot delete non-existent file: " ++ name), b)
    ∧ containsSub "non-existent" ("Cannot delete non-existent file: " ++ name) := by
  refine ⟨?_, ?_, ?_, ?_, ?_, ?_⟩
  · simp [Backend.retrieve, h, retrieveCatch, enoent, JsErr.isEnoent]
  · exact containsSub_append_left name (by decide)
  · simp [Backend.update, h, updateCatch, enoent, JsErr.isEnoent]
  · exact containsSub_append_left name (by decide)
  · simp [Backend.remove, h, removeCatch, enoent, JsErr.isEnoent]
  · exact containsSub_append_left name (by decide)

/-- C1 witness: the amended statement at a concrete empty store. -/
theorem missing_file_error_markers_witness :
    (Backend.initialized 0).retrieve "a.md" "system"
        = .error (.error ("Memory file not found: " ++ "a.md"), Backend.initialized 0)
    ∧ containsSub "not found" ("Memory file not found: " ++ "a.md")
    ∧ (Backend.initialized 0).update "a.md" "c" "system"
        = .error (.error ("Cannot update non-existent file: " ++ "a.md"), Backend.initialized 0)
    ∧ containsSub "non-existent" ("Cannot update non-existent file: " ++ "a.md")
    ∧ (Backend.initialized 0).remove "a.md" "system"
        = .error (.error ("Cannot delete non-existent file: " ++ "a.md"), Backend.initialized 0)
    ∧ containsSub "non-existent" ("Cannot delete non-existent file: " ++ "a.md") :=
  missing_file_error_markers (Backend.initialized 0) "a.md" "system" "c" rfl

/-- C2: evidence for the code bug.  After storing `old.md` and then, once
the clock has advanced, `new.md` (both in the default category `system`),
`list()` with no category returns the empty list — the stored files live
under `root/system/` while the category-less `list` inspects only the
store root's immediate children, which are directories and the index
dotfile.  Listing the `system` category itself shows both files in the
order the claim (and the repository's own test suite) expects. -/
theorem list_root_after_two_stores_misses_them :
    (let b1 := ((Backend.initialized 0).store "old.md" "Old content" "system").2
     let b3 := ({ b1 with now := 1 }.store "new.md" "New content" "system").2
     b3.list none = []
       ∧ (b3.list (some "system")).map (fun m => m.filePath)
           = ["system/new.md", "system/old.md"]) := by
  exact ⟨by decide, by decide⟩

/-- C3: for every state, name, content and category, `store` followed by
`retrieve` with the same name and category returns exactly the stored
content (the model imposes no size bound on contents). -/
theorem store_retrieve_roundtrip (b : Backend) (name content category : String) :
    (((b.store name content category).2.retrieve name category).map
        (fun r => r.1.1)) = .ok content :=
  retrieve_after_store_content b name content category

/-- C4: starting from a `store` (which writes an `accessCount = 0`
record), N consecutive `retrieve` calls return metadata whose counters
are exactly 1, 2, …, N (strictly increasing), the final record in the
index holds `accessCount = N`, and a subsequent `store` or `update`
resets the counter to 0. -/
theorem access_count_increments_and_write_resets
    (b : Backend) (name content category newContent : String) (N : Nat) :
    (iterRetrieve name category N (b.store name content category).2).1
        = (List.range N).map (fun i => i + 1)
    ∧ ((jsMapGet (iterRetrieve name category N
          (b.store name content category).2).2.metadata name).map
        (fun m => m.accessCount)) = some N
    ∧ ((iterRetrieve name category N (b.store name content category).2).2.store
          name newContent category).1.accessCount = 0
    ∧ (iterRetrieve name category N (b.store name content category).2).2.update
          name newContent category
        = .ok ((iterRetrieve name category N (b.store name content category).2).2.store
          name newContent category) := by
  obtain ⟨hf, hm⟩ := store_state b name content category
  obtain ⟨h1, h2, h3⟩ := iterRetrieve_spec name category content N
    (b.store name content category).2 (b.store name content category).1 hf hm
  have hac : (b.store name content category).1.accessCount = 0 := rfl
  refine ⟨?_, ?_, rfl, ?_⟩
  · rw [h1, hac]
    simp
  · rw [h2, hac]
    simp
  · have hf2 : jsMapGet (iterRetrieve name category N
        (b.store name content category).2).2.fsFiles (joinRel category name)
        = some content := by rw [h3]; exact hf
    simp [Backend.update, hf2]

/-- C5: when a file already exists at `root/category/name`, `update`
returns exactly the result and post state of `store` (full replace, hash
and size recomputed, `accessCount` reset to 0); when the file is absent,
`update` fails with the not-found error and the state at the throw point
is the unchanged input state. -/
theorem update_refines_store (b : Backend) (name content category : String) :
    ((jsMapGet b.fsFiles (joinRel category name)).isSome →
        b.update name content category = .ok (b.store name content category))
    ∧ (jsMapGet b.fsFiles (joinRel category name) = none →
        b.update name content category
          = .error (.error ("Cannot update non-existent file: " ++ name), b)) := by
  constructor
  · intro h
    simp [Backend.update, h]
  · intro h
    simp [Backend.update, h, updateCatch, enoent, JsErr.isEnoent]

/-- C5 witness: both branches at concrete stores. -/
theorem update_refines_store_witness :
    (((Backend.initialized 0).store "a.md" "x" "system").2.update "a.md" "y" "system"
        = .ok (((Backend.initialized 0).store "a.md" "x" "system").2.store "a.md" "y" "system"))
    ∧ ((Backend.initialized 0).update "b.md" "y" "system"
        = .error (.error ("Cannot update non-existent file: " ++ "b.md"),
            Backend.initialized 0)) :=
  ⟨(update_refines_store _ "a.md" "y" "system").1 (by decide),
   (update_refines_store _ "b.md" "y" "system").2 rfl⟩

/-- C6: appending to a stored entry whose content is `old` leaves the
entry's content equal to `old ++ "\n" ++ extra`; the returned metadata
has `accessCount = 0` and its hash and size are computed from the new
full content; retrieving afterwards returns the concatenation. -/
theorem append_concatenates_with_newline
    (b : Backend) (name extra category old : String)
    (h : jsMapGet b.fsFiles (joinRel category name) = some old) :
    ∃ md b',
      b.append name extra category = .ok (md, b')
      ∧ md.accessCount = 0
      ∧ md.contentHash = sha256Model (old ++ "\n" ++ extra)
      ∧ md.size = utf8Size (old ++ "\n" ++ extra)
      ∧ jsMapGet b'.fsFiles (joinRel category name) = some (old ++ "\n" ++ extra)
      ∧ ((b'.retrieve name category).map (fun r => r.1.1))
          = .ok (old ++ "\n" ++ extra) := by
  obtain ⟨mdR, b1, hr, hfs, _⟩ := retrieve_content_ok b name category old h
  have hfs1 : jsMapGet b1.fsFiles (joinRel category name) = some old := by
    rw [hfs]; exact h
  have hu : b.append name extra category
      = .ok (b1.store name (old ++ "\n" ++ extra) category) := by
    simp [Backend.append, hr, Backend.update, hfs1]
  refine ⟨_, _, hu, rfl, rfl, rfl, ?_, retrieve_after_store_content b1 name _ category⟩
  exact jsMapGet_set_self b1.fsFiles (joinRel category name) (old ++ "\n" ++ extra)

/-- C6 witness: `store(name, "A")` then `append(name, "B")` yields
content `A\nB`. -/
theorem append_concatenates_with_newline_witness :
    ∃ md b',
      ((Backend.initialized 0).store "n.md" "A" "system").2.append "n.md" "B" "system"
          = .ok (md, b')
      ∧ md.accessCount = 0
      ∧ md.contentHash = sha256Model ("A" ++ "\n" ++ "B")
      ∧ md.size = utf8Size ("A" ++ "\n" ++ "B")
      ∧ jsMapGet b'.fsFiles (joinRel "system" "n.md") = some ("A" ++ "\n" ++ "B")
      ∧ ((b'.retrieve "n.md" "system").map (fun r => r.1.1))
          = .ok ("A" ++ "\n" ++ "B") :=
  append_concatenates_with_newline _ "n.md" "B" "system" "A" (by decide)

/-- C7 counterexample: when its directory read fails (here with a
permissions error), `list` returns the substitute value `[]` instead of
raising the underlying error, contradicting the claim that every
non-missing-file I/O failure propagates unchanged. -/
theorem list_swallows_readdir_error :
    (Backend.initialized 0).listWithReaddir
        (.error (.errno "EACCES" "EACCES: permission denied, scandir"))
      = .ok []
    ∧ ((Except.ok [] : Except JsErr (List FileMetadata))
        ≠ .error (.errno "EACCES" "EACCES: permission denied, scandir")) := by
  exact ⟨rfl, by simp⟩

/-- C7 (amended): a non-ENOENT I/O failure in `retrieve`, `update` or
`remove` is rethrown to the immediate caller unchanged; `list`, however,
catches any directory-read failure and returns an empty list instead of
raising it. -/
theorem io_error_propagation (b : Backend) (name : String) (e : JsErr)
    (h : e.isEnoent = false) :
    retrieveCatch name e = e
    ∧ updateCatch name e = e
    ∧ removeCatch name e = e
    ∧ b.listWithReaddir (.error e) = .ok [] := by
  simp [retrieveCatch, updateCatch, removeCatch, Backend.listWithReaddir, h]

/-- C7 witness: the amended statement at a concrete permissions error. -/
theorem io_error_propagation_witness :
    retrieveCatch "a.md" (.errno "EACCES" "EACCES: permission denied")
        = .errno "EACCES" "EACCES: permission denied"
    ∧ updateCatch "a.md" (.errno "EACCES" "EACCES: permission denied")
        = .errno "EACCES" "EACCES: permission denied"
    ∧ removeCatch "a.md" (.errno "EACCES" "EACCES: permission denied")
        = .errno "EACCES" "EACCES: permission denied"
    ∧ (Backend.initialized 0).listWithReaddir
        (.error (.errno "EACCES" "EACCES: permission denied")) = .ok [] :=
  io_error_propagation (Backend.initialized 0) "a.md"
    (.errno "EACCES" "EACCES: permission denied") rfl

/-- C8: `getStats` reports `totalFiles` as the number of entries of the
in-memory index, `totalSize` as the sum of their `size` fields,
`categories` as the fixed configured list, and `mostAccessed` as a
permutation of the index values sorted by `accessCount` descending and
truncated to at most 10 elements. -/
theorem getStats_aggregates_index (b : Backend) :
    (b.getStats).totalFiles = b.metadata.length
    ∧ (b.getStats).totalSize = (b.metadata.map (fun p => p.2.size)).sum
    ∧ (b.getStats).categories = ["system", "personalities", "projects"]
    ∧ (∃ l : List FileMetadata,
        List.Perm l (b.metadata.map (fun p => p.2))
        ∧ l.Sorted (fun x y => y.accessCount ≤ x.accessCount)
        ∧ (b.getStats).mostAccessed = l.take 10)
    ∧ (b.getStats).mostAccessed.length ≤ 10 := by
  refine ⟨by simp [Backend.getStats], ?_, rfl, ?_, ?_⟩
  · show (b.metadata.map (fun p => p.2)).foldl (fun sum m => sum + m.size) 0 = _
    rw [foldl_add_size]
    simp only [Nat.zero_add, List.map_map]
    exact congrArg List.sum (List.map_congr_left (fun a _ => rfl))
  · refine ⟨sortByDesc (fun m => m.accessCount) (b.metadata.map (fun p => p.2)),
      sortByDesc_perm _ _, sortByDesc_sorted _ _, ?_⟩
    rfl
  · show ((sortByDesc (fun m => m.accessCount)
        (b.metadata.map (fun p => p.2))).take 10).length ≤ 10
    rw [List.length_take]
    omega

/-- C9: retrieving a file that exists on disk but has no record in the
in-memory index succeeds with synthesized metadata (hash of the current
content, `accessCount = 1`) and returns the input state unchanged — so
neither the in-memory index nor the persisted index file is touched, and
any subsequent such retrieve reports `accessCount = 1` again. -/
theorem retrieve_untracked_leaves_state_unchanged
    (b : Backend) (name category content : String)
    (hf : jsMapGet b.fsFiles (joinRel category name) = some content)
    (hm : jsMapGet b.metadata name = none) :
    b.retrieve name category
      = .ok ((content,
          { filePath := joinRel category name
            contentHash := sha256Model content
            lastUpdated := b.now
            accessCount := 1
            size := jsLength content }), b) := by
  simp [Backend.retrieve, hf, hm]

/-- C9 witness: a concrete store whose filesystem holds an untracked file. -/
theorem retrieve_untracked_leaves_state_unchanged_witness :
    (let b : Backend :=
      { metadata := [], fsFiles := [("system/a.md", "hi")],
        dirs := ["system", "personalities", "projects"],
        metaSaved := false, savedIndex := [], now := 0 }
     b.retrieve "a.md" "system"
       = .ok (("hi",
           { filePath := joinRel "system" "a.md"
             contentHash := sha256Model "hi"
             lastUpdated := 0
             accessCount := 1
             size := jsLength "hi" }), b)) :=
  retrieve_untracked_leaves_state_unchanged
    { metadata := [], fsFiles := [("system/a.md", "hi")],
      dirs := ["system", "personalities", "projects"],
      metaSaved := false, savedIndex := [], now := 0 }
    "a.md" "system" "hi" (by decide) rfl

/-- C10: appending to a name with no file at `root/category/name` fails
with the `retrieve` not-found error before any write happens: the state
at the throw point is the unchanged input state (no file created, index
and index file untouched). -/
theorem append_missing_fails_without_write
    (b : Backend) (name extra category : String)
    (h : jsMapGet b.fsFiles (joinRel category name) = none) :
    b.append name extra category
      = .error (.error ("Memory file not found: " ++ name), b) := by
  simp [Backend.append, Backend.retrieve, h, retrieveCatch, enoent, JsErr.isEnoent]

/-- C10 witness: appending to an empty store fails with the retrieve
not-found error and the unchanged state. -/
theorem append_missing_fails_without_write_witness :
    (Backend.initialized 0).append "a.md" "B" "system"
      = .error (.error ("Memory file not found: " ++ "a.md"), Backend.initialized 0) :=
  append_missing_fails_without_write (Backend.initialized 0) "a.md" "B" "system" rfl

end NekoMemory
